import Mathlib

/-!
Verification of the DAB mode-descriptor header (src/include/types/mode_descriptor.h).

The header defines, per transmission mode, a compile-time table of primary
parameters (template arguments of `mode_descriptor`) and derived parameters
(`integral_constant` member aliases).  All arithmetic is on `std::size_t`,
modelled here as natural numbers with explicit reduction modulo 2 ^ 64 at every
operation the C++ performs in `std::size_t` (subtraction and multiplication may
wrap; division truncates).

The recursive helper `detail::next_power_of_two` doubles a `start` accumulator
until it strictly exceeds `value`.  In `std::size_t` the accumulator runs
through 2 ^ 0, 2 ^ 1, ..., 2 ^ 63 and then wraps to 0, which is absorbing
(0 * 2 mod 2 ^ 64 = 0 and 0 exceeds nothing), so the recursion either stops
within 65 comparisons or never stops.  We embed it with an explicit fuel
parameter returning `Option`: `none` models non-termination, and 66 units of
fuel are provably enough to decide every input.
-/

namespace dab

/-- Modulus of the 64-bit unsigned type `std::size_t` used by the header. -/
def size_t_mod : Nat := 2 ^ 64

/-- Fuel-indexed embedding of `detail::next_power_of_two(value, start)`
(mode_descriptor.h lines 27-30):
`return start > value ? start : next_power_of_two(value, start * 2);`
where `start * 2` is `std::size_t` multiplication, hence reduced mod 2 ^ 64.
`none` models a recursion that has not stopped within `fuel` steps. -/
def next_power_of_two_aux : Nat → Nat → Nat → Option Nat
  | 0, _, _ => none
  | fuel + 1, value, start =>
      if start > value then some start
      else next_power_of_two_aux fuel value (start * 2 % size_t_mod)

/-- Embedding of `detail::next_power_of_two(value)` with the default
argument `start = 1`.  Starting from 1 the accumulator takes the values
2 ^ 0, ..., 2 ^ 63 and then the absorbing value 0, so 66 units of fuel are
enough to decide every input: a `none` result means the C++ recursion never
terminates (proved below in `next_power_of_two_aux_absorbed`). -/
def next_power_of_two (value : Nat) : Option Nat :=
  next_power_of_two_aux 66 value 1

/-- Termination predicate for the C++ recursion at its default start:
some amount of fuel makes the embedding produce a value. -/
def npt_terminates (value : Nat) : Prop :=
  ∃ fuel, (next_power_of_two_aux fuel value 1).isSome

/-- Embedding of the `mode_descriptor` template (mode_descriptor.h lines
55-64): one field per template argument, each a `std::size_t` value
(a natural number below 2 ^ 64 for any actual instantiation). -/
structure mode_descriptor where
  Carriers : Nat
  FrameSymbols : Nat
  FicSymbols : Nat
  FrameFibs : Nat
  FrameCifs : Nat
  FrameDuration : Nat
  GuardDuration : Nat
  SymbolDuration : Nat
  NullDuration : Nat
deriving DecidableEq

/-- Member `carriers` (line 74): the raw template argument. -/
def carriers (m : mode_descriptor) : Nat := m.Carriers

/-- Member `frame_symbols` (line 87): `FrameSymbols - 1` in `std::size_t`,
which wraps modulo 2 ^ 64 when `FrameSymbols = 0`. -/
def frame_symbols (m : mode_descriptor) : Nat :=
  (m.FrameSymbols + size_t_mod - 1) % size_t_mod

/-- Member `fic_symbols` (line 98): the raw template argument. -/
def fic_symbols (m : mode_descriptor) : Nat := m.FicSymbols

/-- Member `msc_symbols` (line 109): `frame_symbols::value - FicSymbols` in
`std::size_t`, which wraps modulo 2 ^ 64 when `FicSymbols` exceeds
`frame_symbols::value`. -/
def msc_symbols (m : mode_descriptor) : Nat :=
  (frame_symbols m + size_t_mod - m.FicSymbols) % size_t_mod

/-- Member `frame_fibs` (line 120): the raw template argument. -/
def frame_fibs (m : mode_descriptor) : Nat := m.FrameFibs

/-- Member `frame_cifs` (line 131): the raw template argument. -/
def frame_cifs (m : mode_descriptor) : Nat := m.FrameCifs

/-- Member `fib_codeword_bits` (line 142):
`frame_fibs::value * 256 / frame_cifs::value` in `std::size_t`: the product
wraps modulo 2 ^ 64 and the division truncates.  No divisibility check and no
error path exist in the header. -/
def fib_codeword_bits (m : mode_descriptor) : Nat :=
  m.FrameFibs * 256 % size_t_mod / m.FrameCifs

/-- Member `symbol_bits` (line 151): `carriers::value * 2` in `std::size_t`. -/
def symbol_bits (m : mode_descriptor) : Nat :=
  m.Carriers * 2 % size_t_mod

/-- Member `fft_length` (line 158):
`detail::next_power_of_two(carriers::value)`. -/
def fft_length (m : mode_descriptor) : Option Nat :=
  next_power_of_two m.Carriers

/-- Member `frame_duration` (line 165): the raw template argument. -/
def frame_duration (m : mode_descriptor) : Nat := m.FrameDuration

/-- Member `guard_duration` (line 172): the raw template argument. -/
def guard_duration (m : mode_descriptor) : Nat := m.GuardDuration

/-- Member `symbol_duration` (line 179): the raw template argument. -/
def symbol_duration (m : mode_descriptor) : Nat := m.SymbolDuration

/-- Member `null_duration` (line 186): the raw template argument. -/
def null_duration (m : mode_descriptor) : Nat := m.NullDuration

/-- The derived quantities of the spec bundled in one record, mirroring the
derived member aliases of `mode_descriptor` (lines 87, 109, 142, 151, 158). -/
structure DerivedParameters where
  frame_symbols : Nat
  msc_symbols : Nat
  fib_codeword_bits : Nat
  symbol_bits : Nat
  fft_length : Option Nat
deriving DecidableEq

/-- The derivation of all five derived members from a primary record,
exactly as the header computes them. -/
def derive (m : mode_descriptor) : DerivedParameters :=
  ⟨frame_symbols m, msc_symbols m, fib_codeword_bits m, symbol_bits m,
   fft_length m⟩

/-- DAB transport mode 1 descriptor (line 196). -/
def mode_1 : mode_descriptor := ⟨1536, 76, 3, 12, 4, 96000, 246, 1000, 1297⟩

/-- DAB transport mode 2 descriptor (line 205). -/
def mode_2 : mode_descriptor := ⟨384, 76, 3, 3, 1, 24000, 62, 250, 324⟩

/-- DAB transport mode 3 descriptor (line 214). -/
def mode_3 : mode_descriptor := ⟨192, 153, 8, 4, 1, 24000, 31, 125, 168⟩

/-- DAB transport mode 4 descriptor (line 223). -/
def mode_4 : mode_descriptor := ⟨768, 76, 3, 6, 2, 48000, 123, 500, 648⟩

/-- Modelled from the spec: the four-variant `TransmissionMode` enumeration.
The header `types/transmission_mode.h` it comes from is not under src; only
its inclusion on line 4 of mode_descriptor.h is visible. -/
inductive transmission_mode where
  | mode_i : transmission_mode
  | mode_ii : transmission_mode
  | mode_iii : transmission_mode
  | mode_iv : transmission_mode
deriving DecidableEq

/-- Modelled from the spec: the Primary Parameter Table lookup surface
(spec section 4.1), associating each enumeration variant with its primary
record.  The records themselves are the src aliases `mode_1` ... `mode_4`. -/
def lookup : transmission_mode → mode_descriptor
  | .mode_i => mode_1
  | .mode_ii => mode_2
  | .mode_iii => mode_3
  | .mode_iv => mode_4

/-- Modelled from the spec: the `ParameterError` taxonomy of spec section 7.
No error type exists under src. -/
inductive ParameterError where
  | InvalidSymbolCount : ParameterError
  | InvalidCifCount : ParameterError
  | InvalidCifPartition : ParameterError
deriving DecidableEq

/-- Modelled from the spec: the error-signaling Derivation Engine of spec
sections 4.2 and 7, absent from src (the header computes the derived members
with no validation).  It checks the five invariants of spec section 3 and
otherwise returns exactly the values the header derives. -/
def derive_checked (m : mode_descriptor) : Except ParameterError DerivedParameters :=
  if m.FrameSymbols = 0 then .error .InvalidSymbolCount
  else if frame_symbols m < m.FicSymbols then .error .InvalidSymbolCount
  else if m.FrameCifs = 0 then .error .InvalidCifCount
  else if m.FrameFibs * 256 % size_t_mod % m.FrameCifs = 0 then .ok (derive m)
  else .error .InvalidCifPartition

/-- A primary record with `FrameSymbols = 0`, violating invariant 1 of the
spec; all other fields are those of mode 1. -/
def zero_raw_record : mode_descriptor := ⟨1536, 0, 3, 12, 4, 96000, 246, 1000, 1297⟩

/-- A primary record with `FicSymbols = 80 > frame_symbols = 75`, violating
invariant 2 of the spec; all other fields are those of mode 1. -/
def big_fic_record : mode_descriptor := ⟨1536, 76, 80, 12, 4, 96000, 246, 1000, 1297⟩

/-- A primary record whose `FrameCifs = 7` does not divide
`FrameFibs * 256 = 768`; all other fields are those of mode 1. -/
def bad_cifs_record : mode_descriptor := ⟨1536, 76, 3, 3, 7, 96000, 246, 1000, 1297⟩

/-- Once the accumulator has wrapped to 0 it stays 0 and never exceeds the
value, so the recursion runs out of any amount of fuel. -/
theorem next_power_of_two_aux_absorbed (fuel value : Nat) :
    next_power_of_two_aux fuel value 0 = none := by
  induction fuel with
  | zero => rfl
  | succ f ih => simpa [next_power_of_two_aux] using ih

/-- One unfolding step of the recursion while the accumulator, a power of two
with exponent at most 62, has not yet exceeded the value. -/
theorem next_power_of_two_aux_step (fuel value k : Nat) (hk : k ≤ 62)
    (h : 2 ^ k ≤ value) :
    next_power_of_two_aux (fuel + 1) value (2 ^ k) =
      next_power_of_two_aux fuel value (2 ^ (k + 1)) := by
  have hlt : ¬ value < 2 ^ k := not_lt.mpr h
  have hsmall : 2 ^ (k + 1) < size_t_mod := by
    have h63 : (2 : Nat) ^ (k + 1) ≤ 2 ^ 63 :=
      Nat.pow_le_pow_right (by norm_num) (by omega)
    have : (2 : Nat) ^ 63 < 2 ^ 64 := by norm_num
    calc 2 ^ (k + 1) ≤ 2 ^ 63 := h63
      _ < size_t_mod := this
  have hmod : 2 ^ k * 2 % size_t_mod = 2 ^ (k + 1) := by
    rw [← pow_succ]
    exact Nat.mod_eq_of_lt hsmall
  simp [next_power_of_two_aux, hlt, hmod]

/-- If the value is at least 2 ^ 63, no accumulator in the orbit
2 ^ k, ..., 2 ^ 63, 0, 0, ... ever exceeds it, whatever the fuel: the
recursion diverges. -/
theorem next_power_of_two_aux_diverges (value : Nat) (hv : 2 ^ 63 ≤ value) :
    ∀ fuel k, k ≤ 63 → next_power_of_two_aux fuel value (2 ^ k) = none := by
  intro fuel
  induction fuel with
  | zero => intro k _; rfl
  | succ f ih =>
    intro k hk
    have hle : (2 : Nat) ^ k ≤ value :=
      le_trans (Nat.pow_le_pow_right (by norm_num) hk) hv
    rcases Nat.lt_or_ge k 63 with hk62 | hk63
    · rw [next_power_of_two_aux_step f value k (by omega) hle]
      exact ih (k + 1) (by omega)
    · have hk' : k = 63 := le_antisymm hk hk63
      subst hk'
      have hlt : ¬ value < 2 ^ 63 := not_lt.mpr hv
      have hmod : 2 ^ 63 * 2 % size_t_mod = 0 := by
        rw [← pow_succ]
        simp [size_t_mod]
      simp only [next_power_of_two_aux, gt_iff_lt, hlt, if_false, hmod]
      exact next_power_of_two_aux_absorbed f value

/-- With enough fuel (at least 64 - k steps), starting from accumulator
2 ^ k with k at most 63, the recursion on a value below 2 ^ 63 stops at some
power of two strictly above the value. -/
theorem next_power_of_two_aux_finds_pow :
    ∀ fuel k value : Nat, k ≤ 63 → value < 2 ^ 63 → 64 - k ≤ fuel →
      ∃ j, next_power_of_two_aux fuel value (2 ^ k) = some (2 ^ j) ∧
        value < 2 ^ j := by
  intro fuel
  induction fuel with
  | zero => intro k value hk _ hf; omega
  | succ f ih =>
    intro k value hk hv hf
    by_cases h : value < 2 ^ k
    · exact ⟨k, by simp [next_power_of_two_aux, h], h⟩
    · push_neg at h
      have hk62 : k ≤ 62 := by
        rcases Nat.lt_or_ge k 63 with h1 | h1
        · omega
        · exfalso
          have h2 : (2 : Nat) ^ 63 ≤ 2 ^ k :=
            Nat.pow_le_pow_right (by norm_num) h1
          exact absurd hv (not_lt.mpr (le_trans h2 h))
      rw [next_power_of_two_aux_step f value k hk62 h]
      exact ih (k + 1) value (by omega) hv (by omega)

/-- While the accumulator stays at or below the value, d + 1 steps advance it
from 2 ^ k to 2 ^ (k + d + 1). -/
theorem next_power_of_two_aux_climb :
    ∀ d k value fuel : Nat, k + d ≤ 62 → 2 ^ (k + d) ≤ value →
      next_power_of_two_aux (fuel + (d + 1)) value (2 ^ k) =
        next_power_of_two_aux fuel value (2 ^ (k + d + 1)) := by
  intro d
  induction d with
  | zero =>
    intro k value fuel hk hle
    simpa using next_power_of_two_aux_step fuel value k (by omega)
      (by simpa using hle)
  | succ d ih =>
    intro k value fuel hk hle
    have hk2 : 2 ^ k ≤ value :=
      le_trans (Nat.pow_le_pow_right (by norm_num) (by omega)) hle
    have harith : fuel + (d + 1 + 1) = fuel + (d + 1) + 1 := by omega
    rw [harith,
      next_power_of_two_aux_step (fuel + (d + 1)) value k (by omega) hk2]
    have hrec := ih (k + 1) value fuel (by omega)
      (by rw [show k + 1 + d = k + (d + 1) by omega]; exact hle)
    have hexp : k + 1 + d + 1 = k + (d + 1) + 1 := by omega
    rw [hexp] at hrec
    exact hrec

/-- C7: on input zero the doubling search returns 1 immediately, because it
starts at `start = 1` and `1 > 0` already holds. -/
theorem npt_zero_eq_one : next_power_of_two 0 = some 1 := by
  decide

/-- C1 counterexample: 8 is an exact power of two, yet
`next_power_of_two(8)` returns 16, not 8: the comparison `start > value` is
strict, so an accumulator equal to `value` is doubled once more. -/
theorem npt_power_of_two_not_fixed :
    (8 : Nat) = 2 ^ 3 ∧ next_power_of_two 8 = some 16 ∧
      next_power_of_two 8 ≠ some 8 := by
  refine ⟨by norm_num, by decide, by decide⟩

/-- C2: for each of the four canonical modes, the derived members equal the
concrete scenario values of spec section 8. -/
theorem derived_parameters_match_table :
    derive mode_1 = ⟨75, 72, 768, 3072, some 2048⟩ ∧
    derive mode_2 = ⟨75, 72, 768, 768, some 512⟩ ∧
    derive mode_3 = ⟨152, 144, 1024, 384, some 256⟩ ∧
    derive mode_4 = ⟨75, 72, 768, 1536, some 1024⟩ := by
  refine ⟨by decide, by decide, by decide, by decide⟩

/-- C10: the subtractions in `frame_symbols` and `msc_symbols` are unsigned
and unchecked: with `FrameSymbols = 0` the frame symbol count wraps to
2 ^ 64 - 1, and with `FicSymbols = 80 > 75` the MSC symbol count wraps to
2 ^ 64 - 5; no error is signaled (the derivation is a total function into
plain values). -/
theorem unsigned_wrap_on_invalid_records :
    frame_symbols zero_raw_record = 2 ^ 64 - 1 ∧
      msc_symbols big_fic_record = 2 ^ 64 - 5 := by
  refine ⟨by decide, by decide⟩

/-- C5 counterexample: on a record with `FrameFibs = 3`, `FrameCifs = 7`
(7 does not divide 768), the header derivation signals no error at all: it
produces the truncated quotient `fib_codeword_bits = 768 / 7 = 109`, a value
that does not reconstruct the 768 FIB bits. -/
theorem fib_codeword_bits_truncates_counterexample :
    fib_codeword_bits bad_cifs_record = 109 ∧
      (3 * 256) % 7 ≠ 0 ∧
      fib_codeword_bits bad_cifs_record * 7 ≠ 3 * 256 := by
  refine ⟨by decide, by decide, by decide⟩

/-- C1 amended: for a power of two 2 ^ j with j at most 62, the helper
returns the next strictly larger power of two, 2 ^ (j + 1) = 2 * 2 ^ j:
the strict comparison `start > value` never lets the result equal the
input. -/
theorem npt_power_of_two_doubles (j : Nat) (hj : j ≤ 62) :
    next_power_of_two (2 ^ j) = some (2 ^ (j + 1)) := by
  unfold next_power_of_two
  have h66 : (66 : Nat) = (65 - j) + (j + 1) := by omega
  have hclimb := next_power_of_two_aux_climb j 0 (2 ^ j) (65 - j)
    (by omega) (by rw [Nat.zero_add])
  rw [Nat.zero_add, pow_zero] at hclimb
  rw [h66, hclimb]
  have hlt : (2 : Nat) ^ j < 2 ^ (j + 1) :=
    Nat.pow_lt_pow_succ (by norm_num)
  have hfuel : 65 - j = (64 - j) + 1 := by omega
  rw [hfuel]
  simp [next_power_of_two_aux, hlt]

/-- Witness for the amended C1 theorem at the concrete power 2 ^ 4 = 16. -/
theorem npt_power_of_two_doubles_witness :
    next_power_of_two (2 ^ 4) = some (2 ^ 5) :=
  npt_power_of_two_doubles 4 (by norm_num)

/-- C6: for every value below 2 ^ 63 (the range on which the recursion is
defined), the result is some power of two greater than or equal to the
value. -/
theorem npt_result_power_ge (value : Nat) (hv : value < 2 ^ 63) :
    ∃ r, next_power_of_two value = some r ∧ (∃ j, r = 2 ^ j) ∧ value ≤ r := by
  obtain ⟨j, heq, hlt⟩ :=
    next_power_of_two_aux_finds_pow 66 0 value (by omega) hv (by omega)
  refine ⟨2 ^ j, ?_, ⟨j, rfl⟩, le_of_lt hlt⟩
  have h1 : (1 : Nat) = 2 ^ 0 := (pow_zero 2).symm
  unfold next_power_of_two
  rw [h1]
  exact heq

/-- Witness for C6 at the concrete input 100 (returning 128 = 2 ^ 7). -/
theorem npt_result_power_ge_witness :
    ∃ r, next_power_of_two 100 = some r ∧ (∃ j, r = 2 ^ j) ∧ 100 ≤ r :=
  npt_result_power_ge 100 (by norm_num)

/-- C9 counterexample: at value 2 ^ 63 the recursion never terminates, even
though 2 ^ 63 itself is a representable power of two at least as large as
the input: the strict comparison needs a power strictly above 2 ^ 63, and
the accumulator wraps to 0 before reaching one. -/
theorem npt_not_terminates_at_2_pow_63 : ¬ npt_terminates (2 ^ 63) := by
  rintro ⟨fuel, hf⟩
  have h := next_power_of_two_aux_diverges (2 ^ 63) le_rfl fuel 0 (by omega)
  rw [pow_zero] at h
  rw [h] at hf
  simp at hf

/-- C9 amended: the recursion terminates exactly on the values below 2 ^ 63,
those for which a power of two strictly greater than the value is
representable in the 64-bit size type; from 2 ^ 63 upwards the accumulator
wraps to the absorbing value 0 and the recursion diverges. -/
theorem npt_terminates_iff (value : Nat) :
    npt_terminates value ↔ value < 2 ^ 63 := by
  constructor
  · rintro ⟨fuel, hf⟩
    by_contra hv
    push_neg at hv
    have h := next_power_of_two_aux_diverges value hv fuel 0 (by omega)
    rw [pow_zero] at h
    rw [h] at hf
    simp at hf
  · intro hv
    obtain ⟨j, heq, _⟩ :=
      next_power_of_two_aux_finds_pow 66 0 value (by omega) hv (by omega)
    refine ⟨66, ?_⟩
    have h1 : (1 : Nat) = 2 ^ 0 := (pow_zero 2).symm
    rw [h1, heq]
    rfl

/-- C3: the lookup surface is total over the four-variant enumeration (the
four variants listed are all of them) and returns, for each mode, exactly
the literal primary record of the section 4.1 table. -/
theorem lookup_total_and_literal :
    (∀ m : transmission_mode,
        m = .mode_i ∨ m = .mode_ii ∨ m = .mode_iii ∨ m = .mode_iv) ∧
    lookup .mode_i = ⟨1536, 76, 3, 12, 4, 96000, 246, 1000, 1297⟩ ∧
    lookup .mode_ii = ⟨384, 76, 3, 3, 1, 24000, 62, 250, 324⟩ ∧
    lookup .mode_iii = ⟨192, 153, 8, 4, 1, 24000, 31, 125, 168⟩ ∧
    lookup .mode_iv = ⟨768, 76, 3, 6, 2, 48000, 123, 500, 648⟩ := by
  refine ⟨?_, rfl, rfl, rfl, rfl⟩
  intro m
  cases m
  · exact Or.inl rfl
  · exact Or.inr (Or.inl rfl)
  · exact Or.inr (Or.inr (Or.inl rfl))
  · exact Or.inr (Or.inr (Or.inr rfl))

/-- C4: for each of the four canonical modes the checked derivation engine
succeeds (it returns the derived record, no `ParameterError`), the FIC
symbol count does not exceed the frame symbol count (so the MSC subtraction
does not wrap: the count is non-negative), and the MSC symbol count equals
frame_symbols_raw - 1 - fic_symbols. -/
theorem derivation_succeeds_and_msc_invariant :
    (derive_checked mode_1 = .ok (derive mode_1) ∧
      fic_symbols mode_1 ≤ frame_symbols mode_1 ∧
      msc_symbols mode_1 = 76 - 1 - 3) ∧
    (derive_checked mode_2 = .ok (derive mode_2) ∧
      fic_symbols mode_2 ≤ frame_symbols mode_2 ∧
      msc_symbols mode_2 = 76 - 1 - 3) ∧
    (derive_checked mode_3 = .ok (derive mode_3) ∧
      fic_symbols mode_3 ≤ frame_symbols mode_3 ∧
      msc_symbols mode_3 = 153 - 1 - 8) ∧
    (derive_checked mode_4 = .ok (derive mode_4) ∧
      fic_symbols mode_4 ≤ frame_symbols mode_4 ∧
      msc_symbols mode_4 = 76 - 1 - 3) := by
  refine ⟨⟨rfl, by decide, by decide⟩, ⟨rfl, by decide, by decide⟩,
    ⟨rfl, by decide, by decide⟩, ⟨rfl, by decide, by decide⟩⟩

/-- C8: the derivation is a pure function of the primary record: two runs on
the same record give identical derived values, with no effect beyond the
returned value (the embedding is a plain function into a value type). -/
theorem derive_deterministic (p q : mode_descriptor) (h : p = q) :
    derive p = derive q :=
  congrArg derive h

/-- Witness for C8: two runs on the mode 1 record agree. -/
theorem derive_deterministic_witness :
    mode_1 = mode_1 ∧ derive mode_1 = derive mode_1 :=
  ⟨rfl, derive_deterministic mode_1 mode_1 rfl⟩

/-- C5 amended: on any primary record (fields in the size type range) whose
positive `FrameCifs` does not divide `FrameFibs * 256`, the header
derivation signals nothing: `fib_codeword_bits` is the truncated integer
quotient, which does not reconstruct the FIB bit total when multiplied back
by `FrameCifs`. -/
theorem fib_codeword_bits_truncated_no_error (m : mode_descriptor)
    (_hcifs : 0 < m.FrameCifs)
    (hfibs : m.FrameFibs * 256 < size_t_mod)
    (hndvd : ¬ m.FrameCifs ∣ m.FrameFibs * 256) :
    fib_codeword_bits m = m.FrameFibs * 256 / m.FrameCifs ∧
      fib_codeword_bits m * m.FrameCifs ≠ m.FrameFibs * 256 := by
  have hmod : m.FrameFibs * 256 % size_t_mod = m.FrameFibs * 256 :=
    Nat.mod_eq_of_lt hfibs
  constructor
  · unfold fib_codeword_bits
    rw [hmod]
  · unfold fib_codeword_bits
    rw [hmod]
    intro heq
    refine hndvd ⟨m.FrameFibs * 256 / m.FrameCifs, ?_⟩
    rw [Nat.mul_comm] at heq
    exact heq.symm

/-- Witness for the amended C5 theorem at the concrete record with 3 FIBs
and 7 CIFs. -/
theorem fib_codeword_bits_truncated_no_error_witness :
    fib_codeword_bits bad_cifs_record =
        bad_cifs_record.FrameFibs * 256 / bad_cifs_record.FrameCifs ∧
      fib_codeword_bits bad_cifs_record * bad_cifs_record.FrameCifs ≠
        bad_cifs_record.FrameFibs * 256 :=
  fib_codeword_bits_truncated_no_error bad_cifs_record (by decide)
    (by norm_num [bad_cifs_record, size_t_mod]) (by decide)

end dab
